import Mathlib

/-!
Verification of the `astrocube` DataCube core (`astrocube/__init__.py`).

Shallow embedding conventions:
* numpy floating-point values are modelled as `Option ℚ`: `none` is NaN,
  `some q` a finite value (the claims under study are exact-arithmetic claims,
  so rationals are an adequate value model).
* a 3-D numpy array `[x, y, z]` is `List (List (List (Option ℚ)))`,
  a 2-D array `List (List (Option ℚ))`.
* `scipy.stats.nanmedian` sorts the non-NaN entries and takes the middle
  element (averaging the two middle elements for even length).
* the mutable state of a `DataCube` during `calc_noise_dev` is a `Heap`
  record; the local variable `data_cropped`, which in Python may alias
  `self.data` or hold a fresh copy, is modelled by `Buf`, with writes going
  through the reference (so aliasing bugs would be observable).
-/

abbrev Val := Option ℚ

abbrev Mat := List (List Val)

abbrev Cube := List (List (List Val))

/-- Length of the head sublist: numpy `shape[1]` of a nested list (numpy arrays
are rectangular, so the head row is representative). -/
def headLen {α : Type} (l : List (List α)) : ℕ := (l.headD []).length

/-- numpy `shape[1]` of a cube. -/
def shape1 (c : Cube) : ℕ := headLen c

/-- numpy `shape[2]` of a cube. -/
def shape2 (c : Cube) : ℕ := headLen (c.headD [])

/-- Element access `m[i, j]` of a 2-D array (out of range reads give NaN;
all theorem instances stay in range). -/
def get2 (m : Mat) (i j : ℕ) : Val := (m.getD i []).getD j none

/-- Element access `c[i, j, k]` of a 3-D array. -/
def get3 (c : Cube) (i j k : ℕ) : Val := ((c.getD i []).getD j []).getD k none

/-- numpy `median` of a plain 1-D array: sort, take the middle element, or the
mean of the two middle elements when the length is even; `none` for an empty
array (numpy yields NaN there). -/
def medianOf (ys : List ℚ) : Option ℚ :=
  let xs := List.insertionSort (fun a b => a ≤ b) ys
  let n := xs.length
  if n = 0 then none
  else if n % 2 = 1 then some (xs.getD (n / 2) 0)
  else some ((xs.getD (n / 2 - 1) 0 + xs.getD (n / 2) 0) / 2)

/-- `scipy.stats.nanmedian` of a 1-D slice: the median of the non-NaN entries. -/
def nanmedianL (l : List Val) : Val := medianOf (l.filterMap id)

/-- Default `scale` argument of `_mad`: the source writes `1 / 0.6745`. -/
def madScale : ℚ := 1 / 0.6745

/-- `_mad` of `astrocube/__init__.py` applied to one 1-D slice:
`nanmedian(fabs(data - nanmedian(data))) * scale`.  When every entry is NaN the
inner `nanmedian` is NaN, the subtraction makes the whole slice NaN and the
result is NaN, which the `match` reproduces. -/
def mad1 (l : List Val) : Val :=
  match nanmedianL l with
  | none => none
  | some m =>
      (nanmedianL (l.map (fun v => v.map (fun x => |x - m|)))).map
        (fun y => y * madScale)

/-- `_mad(data, axis=2)` on a 3-D array: the median absolute deviation of each
spectral column, giving a 2-D array. -/
def madAxis2 (c : Cube) : Mat := c.map (fun plane => plane.map mad1)

/-- `_mad(data.reshape(-1, data.shape[2]), axis=0)`: pool all spatial pixels
and take the MAD of each spectral channel, giving a 1-D array.  Faithful for
nonzero spectral depth; numpy's `reshape(-1, 0)` would instead raise a
`ValueError`, so theorems evaluate this only on cubes with `shape[2] > 0`. -/
def madAxis0Flat (c : Cube) : List Val :=
  let rows := c.flatten
  (List.range (shape2 c)).map (fun k => mad1 (rows.map (fun r => r.getD k none)))

/-- `np.expand_dims(m, 2)`: turn a 2-D array of shape (nx, ny) into a 3-D
array of shape (nx, ny, 1). -/
def expandDims2 (m : Mat) : Cube := m.map (fun row => row.map (fun v => [v]))

/-- numpy elementwise multiplication on NaN-capable scalars. -/
def optMul (a b : Val) : Val :=
  match a, b with
  | some x, some y => some (x * y)
  | _, _ => none

/-- `np.expand_dims(m, 2) * np.ones(nz)`: broadcast a 2-D estimate flat across
the spectral axis (each value multiplied by 1.0, nz times). -/
def flatBroadcast (m : Mat) (nz : ℕ) : Cube :=
  m.map (fun row =>
    row.map (fun v => (List.replicate nz (some (1 : ℚ))).map (fun o => optMul v o)))

/-- Broadcast read of the last axis: a length-1 axis is stretched, as numpy
broadcasting does when a (nx, ny, 1) array meets a (nx, ny, nz) one. -/
def bgetRow (l : List Val) (k : ℕ) : Val :=
  if l.length = 1 then l.getD 0 none else l.getD k none

/-- One scalar of `data_cropped[data_cropped > signal_threshold*noise_dev] = nan`:
numpy comparisons with NaN are False, so a NaN threshold or NaN datum is left
alone; a datum strictly above threshold becomes NaN. -/
def clipVal (t : ℚ) (nv v : Val) : Val :=
  match v, nv with
  | some x, some n => if t * n < x then none else some x
  | some x, none => some x
  | none, _ => none

/-- One z-row of the clipping assignment, with last-axis broadcasting of the
threshold row. -/
def clipRow (t : ℚ) (ndRow row : List Val) : List Val :=
  (List.range row.length).map (fun k => clipVal t (bgetRow ndRow k) (row.getD k none))

/-- The whole masked assignment
`data_cropped[data_cropped > signal_threshold*self.noise_dev] = np.nan`. -/
def clipCube (t : ℚ) (nd c : Cube) : Cube :=
  (c.zip nd).map (fun pp => (pp.1.zip pp.2).map (fun rr => clipRow t rr.2 rr.1))

/-- Failure modes of `calc_noise_dev` (the source raises bare `Exception`s with
distinct messages; the spec taxonomy names them `InputShapeError` and
`UnsupportedFeatureError`). -/
inductive NoiseErr
  | inputShape
  | unsupported
deriving DecidableEq

/-- Mutable state touched by `calc_noise_dev`: the cube's own `data`, the
caller-owned `noise_slice_z` buffer (when a seed slice is supplied), and the
three noise attributes. -/
structure Heap where
  data : Cube
  noise_slice_z : Option Cube
  noise_dev_xy : Option Mat
  noise_dev : Option Cube
  noise_dev_z : Option (List Val)
deriving DecidableEq

/-- What the Python local `data_cropped` refers to: `self.data` (line 83 binds
it without copying), the caller's `noise_slice_z`, or a fresh local copy. -/
inductive Buf
  | selfData
  | seedBuf
  | loc (c : Cube)

/-- Read the array a `Buf` currently refers to. -/
def readBuf (h : Heap) : Buf → Cube
  | Buf.selfData => h.data
  | Buf.seedBuf => h.noise_slice_z.getD []
  | Buf.loc c => c

/-- Write in place through a `Buf` reference: writing through an alias of
`self.data` or of the seed slice would mutate the heap. -/
def writeBuf (h : Heap) (b : Buf) (c : Cube) : Heap × Buf :=
  match b with
  | Buf.selfData => ({ h with data := c }, Buf.selfData)
  | Buf.seedBuf => ({ h with noise_slice_z := some c }, Buf.seedBuf)
  | Buf.loc _ => (h, Buf.loc c)

/-- Body of `for _ in range(1, iterations)` in `calc_noise_dev` (lines 96-113),
run `fuel` times or until the unsupported-feature raise.  Each pass clips the
working copy in place against `signal_threshold * self.noise_dev`, recomputes
`self.noise_dev_xy`, and either computes `self.noise_dev_z` and raises
(spectral variation requested) or rebuilds `self.noise_dev` as the flat
broadcast of the new 2-D estimate. -/
def noiseLoop (t : ℚ) (sv : Bool) : ℕ → Heap → Buf → (Heap × Buf) × Option NoiseErr
  | 0, h, b => ((h, b), none)
  | fuel + 1, h, b =>
      let c := clipCube t (h.noise_dev.getD []) (readBuf h b)
      let hb := writeBuf h b c
      let h1 := { hb.1 with noise_dev_xy := some (madAxis2 c) }
      if sv then
        (({ h1 with noise_dev_z := some (madAxis0Flat c) }, hb.2),
          some NoiseErr.unsupported)
      else
        noiseLoop t sv fuel
          { h1 with
            noise_dev := some (flatBroadcast (madAxis2 c) (shape2 h1.data)) }
          hb.2

/-- Lines 89-115 of `calc_noise_dev`, after the seed slice has been selected:
seed 2-D estimate, then either the refinement loop (`iterations > 1`) or the
direct flat broadcast. -/
def noiseMain (iterations : ℤ) (t : ℚ) (sv : Bool) (b : Buf) (h : Heap) :
    Heap × Option NoiseErr :=
  let xy1 := madAxis2 (readBuf h b)
  let h1 := { h with noise_dev_xy := some xy1 }
  if 1 < iterations then
    let h2 := { h1 with noise_dev := some (expandDims2 xy1) }
    let r := noiseLoop t sv (iterations - 1).toNat h2 (Buf.loc h2.data)
    (r.1.1, r.2)
  else
    ({ h1 with noise_dev := some (flatBroadcast xy1 (shape2 h1.data)) }, none)

/-- Spatial-shape agreement between the seed slice and the cube, as the source
checks it: `noise_slice_z.shape[0] == data.shape[0] and shape[1] == shape[1]`. -/
def seedShapeOk (h : Heap) : Prop :=
  (h.noise_slice_z.getD []).length = h.data.length ∧
    headLen (h.noise_slice_z.getD []) = shape1 h.data

instance (h : Heap) : Decidable (seedShapeOk h) := by
  unfold seedShapeOk; infer_instance

/-- `DataCube.calc_noise_dev(iterations, signal_threshold, noise_slice_z,
compute_spectral_variation)`.  `useSeed` tells whether a `noise_slice_z`
argument was passed (its contents live in `h.noise_slice_z`).  The returned
heap is the state of the object when the call returns or when the exception
propagates; the second component is the exception, if any. -/
def calc_noise_dev (iterations : ℤ) (t : ℚ) (useSeed sv : Bool) (h : Heap) :
    Heap × Option NoiseErr :=
  if useSeed then
    if seedShapeOk h then
      noiseMain iterations t sv (Buf.loc (h.noise_slice_z.getD [])) h
    else
      (h, some NoiseErr.inputShape)
  else
    noiseMain iterations t sv Buf.selfData h

/-- Python `int()` applied to a float: truncation toward zero. -/
def pyint (x : ℚ) : ℤ := if 0 ≤ x then ⌊x⌋ else ⌈x⌉

/-- Python `x % 1` on floats: the representative in `[0, 1)` (the sign of the
result follows the divisor), i.e. `x - floor x`. -/
def pymod1 (x : ℚ) : ℚ := x - ⌊x⌋

/-- `_deg2hms`: `hours = deg/360*24`, `arcmin = (hours%1)*60`,
`arcsec = (arcmin%1)*60`, returning `(int(hours), int(arcmin), arcsec)`. -/
def deg2hms (deg : ℚ) : ℤ × ℤ × ℚ :=
  let hours := deg / 360 * 24
  let arcmin := pymod1 hours * 60
  let arcsec := pymod1 arcmin * 60
  (pyint hours, pyint arcmin, arcsec)

/-- `_deg2dms`: `arcmin = (deg%1)*60`, `arcsec = (arcmin%1)*60`, returning
`(int(deg), int(arcmin), arcsec)`. -/
def deg2dms (deg : ℚ) : ℤ × ℤ × ℚ :=
  let arcmin := pymod1 deg * 60
  let arcsec := pymod1 arcmin * 60
  (pyint deg, pyint arcmin, arcsec)

/-- Reading of a (deg, arcmin, arcsec) triple under the spec's convention:
the sign applies once to the whole triple, whose components are magnitudes. -/
def dmsReassemble (tr : ℤ × ℤ × ℚ) : ℚ :=
  (if tr.1 < 0 then (-1 : ℚ) else 1) *
    (|(tr.1 : ℚ)| + (tr.2.1 : ℚ) / 60 + tr.2.2 / 3600)

/-- Round to the nearest integer, ties to even, as Python's fixed-point float
formatting does on the (here exact) decimal value. -/
def roundHE (q : ℚ) : ℤ :=
  let f := ⌊q⌋
  let r := q - f
  if r < 1/2 then f
  else if 1/2 < r then f + 1
  else if f % 2 = 0 then f else f + 1

/-- Zero-pad a digit string on the left to width `d`. -/
def natPad (s : String) (d : ℕ) : String :=
  String.mk (List.replicate (d - s.length) '0') ++ s

/-- Python `"{0:.df}".format(x)` on an exact value: round to `d` decimal
places (ties to even) and print with exactly `d` digits after the point.
(The sign of a negative value that rounds to zero is dropped, unlike CPython's
"-0.00"; no claim exercises that corner.) -/
def formatFixed (x : ℚ) (d : ℕ) : String :=
  let scaled := roundHE (x * (10 : ℚ) ^ d)
  let sign := if scaled < 0 then "-" else ""
  let n := scaled.natAbs
  if d = 0 then sign ++ toString n
  else sign ++ toString (n / 10 ^ d) ++ "." ++ natPad (toString (n % 10 ^ d)) d

/-- ASCII apostrophe, written via its code point. -/
def primeStr : String := String.mk [Char.ofNat 39]

/-- The string `"{h}h {m}m {s:.decimalsf}s"` of `point_coords_str`. -/
def hmsStr (tr : ℤ × ℤ × ℚ) (d : ℕ) : String :=
  toString tr.1 ++ "h " ++ toString tr.2.1 ++ "m " ++ formatFixed tr.2.2 d ++ "s"

/-- The string `"{d}° {m}' {s:.decimalsf}''"` of `point_coords_str`. -/
def dmsStr (tr : ℤ × ℤ × ℚ) (d : ℕ) : String :=
  toString tr.1 ++ "° " ++ toString tr.2.1 ++ primeStr ++ " " ++
    formatFixed tr.2.2 d ++ primeStr ++ primeStr

/-- The valid coordinate format names of `point_coords_str`. -/
inductive CoordFmt
  | deg
  | hms
  | dms

/-- The right-ascension formatting branch of `point_coords_str` (lines
159-167), applied to an already-computed `ra_deg` value. -/
def raFormatted (fmt : CoordFmt) (ra_deg : ℚ) (decimals : ℕ) : String :=
  match fmt with
  | CoordFmt.deg => formatFixed ra_deg decimals ++ "°"
  | CoordFmt.hms => hmsStr (deg2hms ra_deg) decimals
  | CoordFmt.dms => dmsStr (deg2dms ra_deg) decimals

/-- A FITS header value: string-valued or integer-valued card. -/
inductive HVal
  | str (s : String)
  | int (n : ℤ)
deriving DecidableEq

/-- A FITS header: an association list from keyword to value. -/
abbrev Header := List (String × HVal)

/-- Header lookup. -/
def hGet (h : Header) (k : String) : Option HVal :=
  (h.find? (fun p => p.1 == k)).map (fun p => p.2)

/-- Header keyword constants. -/
def kOBJECT : String := "OBJECT"

def kLINENAME : String := "LINENAME"

def kNAXIS : String := "NAXIS"

/-- Line 37 of `DataCube.__init__`:
`set(("OBJECT","LINENAME","NAXIS")) <= set(header.keys()) and header["NAXIS"] == 3`. -/
def headerValid (h : Header) : Bool :=
  (hGet h kOBJECT).isSome && (hGet h kLINENAME).isSome &&
    (hGet h kNAXIS).isSome && (hGet h kNAXIS == some (HVal.int 3))

/-- What `pywcs.WCS(header)` reports: the 0-based FITS axis index of the
longitude, latitude and spectral axes, and the longitude/latitude type codes. -/
structure WCSInfo where
  lng : ℕ
  lat : ℕ
  spec : ℕ
  lngtyp : String
  lattyp : String

/-- Failure modes of `DataCube.__init__`: the metadata `Exception` of line 38
(the spec's `FormatError`) and the `assert` failures of lines 44-45. -/
inductive InitErr
  | formatErr
  | assertErr
deriving DecidableEq

/-- The fields of a constructed `DataCube` relevant to the claims (noise
attributes are handled separately by `calc_noise_dev` on a `Heap`). -/
structure DataCubeObj where
  object_name : HVal
  line_name : HVal
  index_ra : ℕ
  index_dec : ℕ
  index_vel : ℕ
  data : Cube

/-- Size of numpy axis `j` of a nested-list cube. -/
def dimAt (c : Cube) : ℕ → ℕ
  | 0 => c.length
  | 1 => shape1 c
  | _ => shape2 c

/-- Index placement for `transpose`: the source-axis-`p` index of the element
landing at `(i, j, k)`, when the transpose axes are `(a0, a1, _)`. -/
def pick (a0 a1 i j k p : ℕ) : ℕ :=
  if p = a0 then i else if p = a1 then j else k

/-- numpy `c.transpose((a0, a1, a2))` on a rectangular nested-list cube:
`result[i,j,k] = c[m]` where `m` places `i` at axis `a0`, `j` at `a1`, `k` at
`a2`. -/
def transposeCube (a0 a1 a2 : ℕ) (c : Cube) : Cube :=
  (List.range (dimAt c a0)).map (fun i =>
    (List.range (dimAt c a1)).map (fun j =>
      (List.range (dimAt c a2)).map (fun k =>
        get3 c (pick a0 a1 i j k 0) (pick a0 a1 i j k 1) (pick a0 a1 i j k 2))))

/-- The file-axis index vector `(m0, m1, m2)` read as a function of the numpy
axis number, for stating where a canonical-order pixel comes from. -/
def idxSel (m0 m1 m2 j : ℕ) : ℕ :=
  if j = 0 then m0 else if j = 1 then m1 else m2

/-- `DataCube.__init__` given an already-loaded HDU (header + data array) and
the axis classification pywcs derives from the header: metadata validation
(line 37), the RA/DEC axis-type asserts (lines 44-45), then the re-index of
the array to canonical (RA, DEC, VEL) order (line 53, where numpy axis
`2 - f` corresponds to FITS axis `f`). -/
def dataCubeInit (hdr : Header) (w : WCSInfo) (arr : Cube) :
    Except InitErr DataCubeObj :=
  if ¬ headerValid hdr then Except.error InitErr.formatErr
  else if w.lngtyp ≠ "RA" then Except.error InitErr.assertErr
  else if w.lattyp ≠ "DEC" then Except.error InitErr.assertErr
  else Except.ok
    { object_name := (hGet hdr kOBJECT).getD (HVal.int 0)
      line_name := (hGet hdr kLINENAME).getD (HVal.int 0)
      index_ra := w.lng
      index_dec := w.lat
      index_vel := w.spec
      data := transposeCube (2 - w.lng) (2 - w.lat) (2 - w.spec) arr }

/-- Modelled from the spec: the MAD estimator exactly as the claim words it,
`median(abs(v - median(v)))` scaled by the literal constant `1.4826`, for a
1-D array without NaNs.  Compared against `mad1`, whose scale is the source's
`1 / 0.6745`. -/
def madClaimConst (v : List ℚ) : Option ℚ :=
  (medianOf (v.map (fun x => |x - (medianOf v).getD 0|))).map
    (fun y => y * (1.4826 : ℚ))

/-- Sample object and line names for concrete headers. -/
def vObject : String := "M42"

def vLine : String := "CO(1-0)"

/-- Sample RA/DEC type codes as pywcs reports them. -/
def strRA : String := "RA"

def strDEC : String := "DEC"

/-- A complete valid header. -/
def hdrW : Header :=
  [(kOBJECT, HVal.str vObject), (kLINENAME, HVal.str vLine), (kNAXIS, HVal.int 3)]

/-- A header missing `LINENAME`. -/
def hdrMissing : Header := [(kOBJECT, HVal.str vObject), (kNAXIS, HVal.int 3)]

/-- A WCS classification putting RA on FITS axis 1, DEC on axis 0, VEL on
axis 2 — a nontrivial permutation. -/
def wW : WCSInfo :=
  { lng := 1, lat := 0, spec := 2, lngtyp := strRA, lattyp := strDEC }

/-- A 2×2×2 raw array with pairwise distinct entries. -/
def arrW : Cube :=
  [[[some 0, some 1], [some 2, some 3]], [[some 4, some 5], [some 6, some 7]]]

/-- A minimal heap for witnesses: a 1×1×0 cube, no seed, no prior noise. -/
def hW0 : Heap :=
  { data := [[[]]], noise_slice_z := none, noise_dev_xy := none,
    noise_dev := none, noise_dev_z := none }

/-- A heap with a 1×1×1 cube and a previously computed noise estimate, used to
exhibit the overwrite performed by the unsupported-feature path. -/
def hC4 : Heap :=
  { data := [[[some 0]]], noise_slice_z := none, noise_dev_xy := some [[some 99]],
    noise_dev := some [[[some 99]]], noise_dev_z := none }

/-- A heap whose seed slice has the wrong spatial shape (0 rows vs 1). -/
def hSeedBad : Heap :=
  { data := [[[some 0]]], noise_slice_z := some [], noise_dev_xy := none,
    noise_dev := none, noise_dev_z := none }

/-! Helper lemmas about list access and the array operations. -/

theorem getD_map_fd {α β : Type} (f : α → β) (l : List α) (i : ℕ) (d : α) :
    (l.map f).getD i (f d) = f (l.getD i d) := by
  induction l generalizing i with
  | nil => simp
  | cons a t ih => cases i <;> simp [ih]

theorem getD_of_le {α : Type} (l : List α) (i : ℕ) (d : α) (h : l.length ≤ i) :
    l.getD i d = d := by
  induction l generalizing i with
  | nil => simp
  | cons a t ih =>
      cases i with
      | zero => simp at h
      | succ i => simpa using ih i (by simpa using h)

theorem getD_range_map {α : Type} (f : ℕ → α) (n i : ℕ) (d : α) (h : i < n) :
    ((List.range n).map f).getD i d = f i := by
  rw [List.getD_eq_getElem _ _ (by simpa using h)]
  simp

theorem filterMap_id_map_some {α : Type} (l : List α) :
    (l.map some).filterMap id = l := by
  induction l <;> simp [*]

theorem filterMap_id_map_optmap (f : ℚ → ℚ) (l : List Val) :
    (l.map (fun v => v.map f)).filterMap id = (l.filterMap id).map f := by
  induction l with
  | nil => simp
  | cons a t ih => cases a <;> simp [ih]

theorem medianOf_isSome (v : List ℚ) (hv : v ≠ []) : (medianOf v).isSome := by
  unfold medianOf
  have hlen : (List.insertionSort (fun a b => a ≤ b) v).length = v.length :=
    List.length_insertionSort _ v
  have h0 : v.length ≠ 0 := by simpa using fun h => hv (List.length_eq_zero.mp h)
  simp only [hlen]
  rw [if_neg h0]
  by_cases hpar : v.length % 2 = 1 <;> simp [hpar]

theorem transposeCube_get (a0 a1 a2 : ℕ) (c : Cube) (x y z : ℕ)
    (hx : x < dimAt c a0) (hy : y < dimAt c a1) (hz : z < dimAt c a2) :
    get3 (transposeCube a0 a1 a2 c) x y z
      = get3 c (pick a0 a1 x y z 0) (pick a0 a1 x y z 1) (pick a0 a1 x y z 2) := by
  show ((((List.range (dimAt c a0)).map _).getD x []).getD y []).getD z none = _
  rw [getD_range_map _ _ _ _ hx, getD_range_map _ _ _ _ hy, getD_range_map _ _ _ _ hz]

/-- Claim C8: construction fails with the metadata `FormatError` whenever the
header lacks `OBJECT` or `LINENAME` or does not declare exactly 3 axes, and it
does so uniformly in the WCS classification and the data array — i.e. before
any WCS interpretation or axis-reordering work is performed. -/
theorem dataCubeInit_missing_metadata (hdr : Header) (w : WCSInfo) (arr : Cube)
    (hbad : hGet hdr kOBJECT = none ∨ hGet hdr kLINENAME = none ∨
      hGet hdr kNAXIS ≠ some (HVal.int 3)) :
    dataCubeInit hdr w arr = Except.error InitErr.formatErr := by
  have hv : ¬ headerValid hdr := by
    unfold headerValid
    rcases hbad with hcase | hcase | hcase <;> simp [hcase]
  unfold dataCubeInit
  rw [if_pos hv]

/-- Witness for C8: a concrete header missing `LINENAME` is rejected, whatever
the WCS says and whatever the array holds. -/
theorem dataCubeInit_missing_metadata_w :
    dataCubeInit hdrMissing wW arrW = Except.error InitErr.formatErr :=
  dataCubeInit_missing_metadata hdrMissing wW arrW (by decide)

/-- Claim C1: for a valid 3-axis cube whose WCS declares an arbitrary
permutation of (RA, DEC, VEL) over the FITS axes, the constructed `data`
array is the source array permuted to canonical [RA, DEC, VEL] order: for
indices within the shape, `data[x,y,z]` equals the source value at the
file-axis location `(m0, m1, m2)` that carries `x` on the RA axis
(numpy axis `2 - lng`), `y` on the DEC axis and `z` on the VEL axis. -/
theorem dataCubeInit_axis_reorder (hdr : Header) (w : WCSInfo) (arr : Cube)
    (x y z m0 m1 m2 : ℕ)
    (hv : headerValid hdr = true) (hra : w.lngtyp = "RA") (hdec : w.lattyp = "DEC")
    (hl3 : w.lng < 3) (ht3 : w.lat < 3) (hs3 : w.spec < 3)
    (hd1 : w.lng ≠ w.lat) (hd2 : w.lng ≠ w.spec) (hd3 : w.lat ≠ w.spec)
    (hx : x < dimAt arr (2 - w.lng)) (hy : y < dimAt arr (2 - w.lat))
    (hz : z < dimAt arr (2 - w.spec))
    (hmx : idxSel m0 m1 m2 (2 - w.lng) = x)
    (hmy : idxSel m0 m1 m2 (2 - w.lat) = y)
    (hmz : idxSel m0 m1 m2 (2 - w.spec) = z) :
    ∃ o : DataCubeObj, dataCubeInit hdr w arr = Except.ok o ∧
      get3 o.data x y z = get3 arr m0 m1 m2 := by
  have hok : dataCubeInit hdr w arr = Except.ok
      { object_name := (hGet hdr kOBJECT).getD (HVal.int 0)
        line_name := (hGet hdr kLINENAME).getD (HVal.int 0)
        index_ra := w.lng
        index_dec := w.lat
        index_vel := w.spec
        data := transposeCube (2 - w.lng) (2 - w.lat) (2 - w.spec) arr } := by
    unfold dataCubeInit
    rw [if_neg (by simp [hv]), if_neg (by simp [hra]), if_neg (by simp [hdec])]
  refine ⟨_, hok, ?_⟩
  show get3 (transposeCube (2 - w.lng) (2 - w.lat) (2 - w.spec) arr) x y z
      = get3 arr m0 m1 m2
  rw [transposeCube_get _ _ _ _ _ _ _ hx hy hz]
  have hcases :
      (w.lng = 0 ∧ w.lat = 1 ∧ w.spec = 2) ∨ (w.lng = 0 ∧ w.lat = 2 ∧ w.spec = 1) ∨
      (w.lng = 1 ∧ w.lat = 0 ∧ w.spec = 2) ∨ (w.lng = 1 ∧ w.lat = 2 ∧ w.spec = 0) ∨
      (w.lng = 2 ∧ w.lat = 0 ∧ w.spec = 1) ∨ (w.lng = 2 ∧ w.lat = 1 ∧ w.spec = 0) := by
    omega
  rcases hcases with ⟨e1, e2, e3⟩ | ⟨e1, e2, e3⟩ | ⟨e1, e2, e3⟩ | ⟨e1, e2, e3⟩ |
      ⟨e1, e2, e3⟩ | ⟨e1, e2, e3⟩ <;>
    simp only [e1, e2, e3] at hmx hmy hmz ⊢ <;>
    norm_num [idxSel, pick] at hmx hmy hmz ⊢ <;>
    subst hmx <;> subst hmy <;> subst hmz <;> rfl

/-- Witness for C1: RA on FITS axis 1, DEC on axis 0, VEL on axis 2; the
canonical-order pixel (1, 0, 1) comes from source location (1, 1, 0). -/
theorem dataCubeInit_axis_reorder_w :
    ∃ o : DataCubeObj, dataCubeInit hdrW wW arrW = Except.ok o ∧
      get3 o.data 1 0 1 = get3 arrW 1 1 0 :=
  dataCubeInit_axis_reorder hdrW wW arrW 1 0 1 1 1 0 (by decide) (by decide)
    (by decide) (by decide) (by decide) (by decide) (by decide) (by decide)
    (by decide) (by decide) (by decide) (by decide) (by decide) (by decide)
    (by decide)

/-- Claim C2 (amended): for a 1-D array without NaNs, `_mad` returns
`median(abs(v - median(v)))` scaled by the source's constant `1 / 0.6745`
(≈ 1.48258, which the claim rounds to 1.4826), and on arrays containing NaNs
both the inner and the outer median ignore exactly the NaN entries. -/
theorem mad_formula_correct (v : List ℚ) (l : List Val) (hv : v ≠ []) :
    mad1 (v.map some)
        = (medianOf (v.map (fun x => |x - (medianOf v).getD 0|))).map
            (fun y => y * madScale)
      ∧ mad1 l = mad1 ((l.filterMap id).map some) := by
  constructor
  · obtain ⟨m, hm⟩ := Option.isSome_iff_exists.mp (medianOf_isSome v hv)
    unfold mad1 nanmedianL
    rw [filterMap_id_map_some v, hm]
    have houter :
        ((v.map some).map (fun w => w.map (fun x => |x - m|))).filterMap id
          = v.map (fun x => |x - m|) := by
      rw [filterMap_id_map_optmap (fun x => |x - m|) (v.map some),
        filterMap_id_map_some v]
    simp only [houter, hm, Option.getD_some]
  · unfold mad1 nanmedianL
    rw [filterMap_id_map_some (l.filterMap id)]
    cases hmed : medianOf (l.filterMap id) with
    | none => rfl
    | some m =>
        have h1 :
            (l.map (fun w => w.map (fun x => |x - m|))).filterMap id
              = (l.filterMap id).map (fun x => |x - m|) :=
          filterMap_id_map_optmap (fun x => |x - m|) l
        have h2 :
            (((l.filterMap id).map some).map
                (fun w => w.map (fun x => |x - m|))).filterMap id
              = (l.filterMap id).map (fun x => |x - m|) := by
          rw [filterMap_id_map_optmap (fun x => |x - m|) ((l.filterMap id).map some),
            filterMap_id_map_some (l.filterMap id)]
        simp only [h1, h2]

/-- Witness for C2: the amended formula at `v = [0, 1]` (and the NaN-exclusion
half at a slice with a NaN entry). -/
theorem mad_formula_correct_w :
    (mad1 ([(0 : ℚ), 1].map some)
        = (medianOf ([(0 : ℚ), 1].map (fun x => |x - (medianOf [(0 : ℚ), 1]).getD 0|))).map
            (fun y => y * madScale)
      ∧ mad1 [none, some 2] = mad1 (([none, some 2].filterMap id).map some)) :=
  mad_formula_correct [(0 : ℚ), 1] [none, some 2] (by decide)

/-- Counterexample for C2 as stated: at `v = [0, 1]` the code's result,
`(1/2) * (1/0.6745) = 1000/1349`, differs from the claimed
`median(abs(v - median(v))) * 1.4826 = (1/2) * 1.4826 = 7413/10000`; the two
constants agree only to 4 decimal places, far outside floating-point
tolerance. -/
theorem mad_scale_cex : mad1 ([(0 : ℚ), 1].map some) ≠ madClaimConst [(0 : ℚ), 1] := by
  have hmed : medianOf [(0 : ℚ), 1] = some (1/2) := by
    unfold medianOf
    norm_num [List.insertionSort, List.orderedInsert]
  have habs : ([(0 : ℚ), 1].map (fun x => |x - (1 : ℚ)/2|)) = [1/2, 1/2] := by
    norm_num
  have hmed2 : medianOf [(1 : ℚ)/2, 1/2] = some (1/2) := by
    unfold medianOf
    norm_num [List.insertionSort, List.orderedInsert]
  have hcode : mad1 ([(0 : ℚ), 1].map some) = some (1000/1349) := by
    have houter :
        (([(0 : ℚ), 1].map some).map (fun w => w.map (fun x => |x - (1 : ℚ)/2|))).filterMap id
          = [(1 : ℚ)/2, 1/2] := by
      rw [filterMap_id_map_optmap (fun x => |x - (1 : ℚ)/2|) ([(0 : ℚ), 1].map some),
        filterMap_id_map_some [(0 : ℚ), 1], habs]
    unfold mad1 nanmedianL
    rw [filterMap_id_map_some [(0 : ℚ), 1], hmed]
    simp only [houter, hmed2, Option.map_some']
    unfold madScale
    norm_num
  have hclaim : madClaimConst [(0 : ℚ), 1] = some (7413/10000) := by
    unfold madClaimConst
    rw [hmed]
    simp only [Option.getD_some]
    rw [habs, hmed2]
    norm_num
  rw [hcode, hclaim]
  norm_num

/-- Claim C7 (code bug): at `deg = -30.25`, Python's `%` yields the positive
fractional part `0.75` while `int()` truncates toward zero, so `_deg2dms`
returns `(-30, 45, 0.0)`.  Read with the sign applied once to the whole
triple, that is `-30.75`, not the input `-30.25` (which would require
`(-30, 15, 0)`), so the triple does not reassemble to the input value. -/
theorem deg2dms_negative_sign_bug :
    deg2dms (-30.25 : ℚ) = (-30, 45, 0) ∧
      dmsReassemble (deg2dms (-30.25 : ℚ)) = (-30.75 : ℚ) ∧
      dmsReassemble (deg2dms (-30.25 : ℚ)) ≠ (-30.25 : ℚ) := by
  have h1 : pymod1 (-30.25 : ℚ) * 60 = 45 := by
    unfold pymod1
    rw [show (⌊(-30.25 : ℚ)⌋ : ℤ) = -31 by norm_num]
    norm_num
  have h2 : pyint (-30.25 : ℚ) = -30 := by
    unfold pyint
    rw [if_neg (by norm_num : ¬ (0 : ℚ) ≤ -30.25)]
    rw [show (-30.25 : ℚ) = -(30.25 : ℚ) by norm_num, Int.ceil_neg]
    norm_num
  have h3 : pymod1 (45 : ℚ) * 60 = 0 := by
    unfold pymod1
    norm_num
  have h4 : pyint (45 : ℚ) = 45 := by
    unfold pyint
    rw [if_pos (by norm_num : (0 : ℚ) ≤ 45)]
    norm_num
  have e : deg2dms (-30.25 : ℚ) = (-30, 45, 0) := by
    simp only [deg2dms]
    rw [h1, h2, h3, h4]
  refine ⟨e, ?_, ?_⟩ <;> rw [e] <;> unfold dmsReassemble <;> norm_num

/-- Claim C6: `_deg2hms` computes hours as `deg/360*24`, which equals
`deg/15`, then minutes as the fractional hours times 60 and seconds as the
fractional minutes times 60, truncating the whole-unit components; and the
literal examples: RA = 83.633212° renders as `5h 34m 32s` in hms mode with 0
decimals and as `83.63°` in deg mode with 2 decimals. -/
theorem deg2hms_div15_formats :
    (∀ deg : ℚ, deg2hms deg
        = (pyint (deg / 15), pyint (pymod1 (deg / 15) * 60),
            pymod1 (pymod1 (deg / 15) * 60) * 60))
      ∧ raFormatted CoordFmt.hms (83.633212 : ℚ) 0 = "5h 34m 32s"
      ∧ raFormatted CoordFmt.deg (83.633212 : ℚ) 2 = "83.63°" := by
  have f1 : (83.633212 : ℚ) / 360 * 24 = 20908303/3750000 := by norm_num
  have g1 : pyint ((20908303 : ℚ)/3750000) = 5 := by
    unfold pyint
    rw [if_pos (by norm_num : (0 : ℚ) ≤ 20908303/3750000)]
    norm_num
  have g2 : pymod1 ((20908303 : ℚ)/3750000) * 60 = 2158303/62500 := by
    unfold pymod1
    rw [show (⌊(20908303/3750000 : ℚ)⌋ : ℤ) = 5 by norm_num]
    norm_num
  have g3 : pyint ((2158303 : ℚ)/62500) = 34 := by
    unfold pyint
    rw [if_pos (by norm_num : (0 : ℚ) ≤ 2158303/62500)]
    norm_num
  have g4 : pymod1 ((2158303 : ℚ)/62500) * 60 = 99909/3125 := by
    unfold pymod1
    rw [show (⌊(2158303/62500 : ℚ)⌋ : ℤ) = 34 by norm_num]
    norm_num
  have e1 : deg2hms (83.633212 : ℚ) = (5, 34, (99909 : ℚ)/3125) := by
    simp only [deg2hms]
    rw [f1, g2, g1, g3, g4]
  have r2 : roundHE ((99909 : ℚ)/3125 * (10 : ℚ) ^ (0 : ℕ)) = 32 := by
    simp only [roundHE]
    rw [show ((99909 : ℚ)/3125 * (10 : ℚ) ^ (0 : ℕ)) = 99909/3125 by norm_num]
    rw [show (⌊(99909/3125 : ℚ)⌋ : ℤ) = 31 by norm_num]
    rw [if_neg (by norm_num : ¬ ((99909 : ℚ)/3125 - (31 : ℤ) < 1/2))]
    rw [if_pos (by norm_num : (1 : ℚ)/2 < (99909 : ℚ)/3125 - (31 : ℤ))]
    norm_num
  have e2 : formatFixed ((99909 : ℚ)/3125) 0 = "32" := by
    simp only [formatFixed]
    rw [r2]
    decide
  have r3 : roundHE ((83.633212 : ℚ) * (10 : ℚ) ^ (2 : ℕ)) = 8363 := by
    simp only [roundHE]
    rw [show ((83.633212 : ℚ) * (10 : ℚ) ^ (2 : ℕ)) = 20908303/2500 by norm_num]
    rw [show (⌊(20908303/2500 : ℚ)⌋ : ℤ) = 8363 by norm_num]
    rw [if_pos (by norm_num : (20908303 : ℚ)/2500 - (8363 : ℤ) < 1/2)]
  have e3 : formatFixed (83.633212 : ℚ) 2 = "83.63" := by
    simp only [formatFixed]
    rw [r3]
    decide
  refine ⟨?_, ?_, ?_⟩
  · intro deg
    simp only [deg2hms]
    rw [show deg / 360 * 24 = deg / 15 by ring]
  · simp only [raFormatted]
    rw [e1]
    show toString (5 : ℤ) ++ "h " ++ toString (34 : ℤ) ++ "m "
        ++ formatFixed ((99909 : ℚ)/3125) 0 ++ "s" = "5h 34m 32s"
    rw [e2]
    decide
  · simp only [raFormatted]
    rw [e3]
    decide

theorem noiseMain_unsupported (it : ℤ) (t : ℚ) (b : Buf) (h : Heap)
    (hit : 1 < it) :
    (noiseMain it t true b h).2 = some NoiseErr.unsupported := by
  unfold noiseMain
  rw [if_pos hit]
  obtain ⟨n, hn⟩ : ∃ n, (it - 1).toNat = n + 1 := ⟨(it - 2).toNat, by omega⟩
  rw [hn]
  simp [noiseLoop]

/-- Claim C3: any call with `iterations > 1` and spectral variation requested
(and a well-shaped or absent seed slice, so that the seed check passes) raises
`UnsupportedFeatureError` instead of returning a result; the quadratic-fit
step after the raise is unreachable, which the embedding reflects by the loop
terminating at the raise. -/
theorem calc_noise_dev_unsupported (it : ℤ) (t : ℚ) (useSeed : Bool) (h : Heap)
    (hit : 1 < it) (hs : useSeed = true → seedShapeOk h) :
    (calc_noise_dev it t useSeed true h).2 = some NoiseErr.unsupported := by
  unfold calc_noise_dev
  cases useSeed with
  | false => simpa using noiseMain_unsupported it t Buf.selfData h hit
  | true =>
      rw [if_pos rfl, if_pos (hs rfl)]
      exact noiseMain_unsupported it t _ h hit

/-- Witness for C3: the documented example `iterations=3,
spectral_variation=True` on a concrete cube. -/
theorem calc_noise_dev_unsupported_w :
    (calc_noise_dev 3 4 false true hW0).2 = some NoiseErr.unsupported :=
  calc_noise_dev_unsupported 3 4 false hW0 (by decide)
    (fun hfalse => absurd hfalse (by decide))

/-- Counterexample for C4 as stated: a call that fails with the
unsupported-feature error does NOT leave `noise_dev_xy` at its prior value —
the seed estimate and the first refinement are committed before the raise. -/
theorem noise_atomicity_cex :
    (calc_noise_dev 2 4 false true hC4).2 = some NoiseErr.unsupported ∧
      (calc_noise_dev 2 4 false true hC4).1.noise_dev_xy ≠ hC4.noise_dev_xy := by
  have h1 : medianOf [(0 : ℚ)] = some 0 := by
    unfold medianOf
    norm_num [List.insertionSort, List.orderedInsert]
  have hm0 : mad1 [some (0 : ℚ)] = some 0 := by
    have houter :
        (([some (0 : ℚ)].map (fun v => v.map (fun x => |x - (0 : ℚ)|))).filterMap id)
          = [(0 : ℚ)] := by
      have hfm : List.filterMap id [some (0 : ℚ)] = [(0 : ℚ)] := by
        exact filterMap_id_map_some [(0 : ℚ)]
      norm_num [hfm]
    unfold mad1 nanmedianL
    rw [show ([some (0 : ℚ)].filterMap id) = [(0 : ℚ)] by
        exact filterMap_id_map_some [(0 : ℚ)], h1]
    simp only [houter, h1, Option.map_some']
    simp
  have hmad : madAxis2 [[[some (0 : ℚ)]]] = [[some (0 : ℚ)]] := by
    show [[mad1 [some (0 : ℚ)]]] = [[some (0 : ℚ)]]
    rw [hm0]
  have hcv : clipVal 4 (some (0 : ℚ)) (some (0 : ℚ)) = some 0 := by
    show (if (4 : ℚ) * 0 < 0 then none else some (0 : ℚ)) = some 0
    rw [if_neg (by norm_num : ¬ ((4 : ℚ) * 0 < 0))]
  have hclip : clipCube 4 (expandDims2 [[some (0 : ℚ)]]) [[[some (0 : ℚ)]]]
      = [[[some (0 : ℚ)]]] := by
    show [[clipRow 4 [some (0 : ℚ)] [some (0 : ℚ)]]] = [[[some (0 : ℚ)]]]
    rw [show clipRow 4 [some (0 : ℚ)] [some (0 : ℚ)]
        = [clipVal 4 (some (0 : ℚ)) (some (0 : ℚ))] from rfl, hcv]
  constructor
  · rfl
  · show some (madAxis2 (clipCube 4
        (expandDims2 (madAxis2 [[[some (0 : ℚ)]]])) [[[some (0 : ℚ)]]]))
      ≠ some [[some 99]]
    rw [hmad, hclip, hmad]
    norm_num

/-- Claim C4 (amended): noise recomputation is atomic for the seed-shape
failure: a seed slice of mismatched spatial shape raises `InputShapeError`
before any mutation, returning the heap exactly as it was.  (For the
unsupported spectral-variation failure the source overwrites `noise_dev_xy`,
`noise_dev` and `noise_dev_z` before raising, as the counterexample shows.) -/
theorem noise_inputShape_atomic (it : ℤ) (t : ℚ) (sv : Bool) (h : Heap)
    (hbad : ¬ seedShapeOk h) :
    calc_noise_dev it t true sv h = (h, some NoiseErr.inputShape) := by
  unfold calc_noise_dev
  rw [if_pos rfl, if_neg hbad]

/-- Witness for C4's amended theorem: a concrete mismatched seed slice. -/
theorem noise_inputShape_atomic_w :
    calc_noise_dev 3 4 true false hSeedBad = (hSeedBad, some NoiseErr.inputShape) :=
  noise_inputShape_atomic 3 4 false hSeedBad (by decide)

theorem noiseLoop_loc_preserves (t : ℚ) (sv : Bool) (n : ℕ) :
    ∀ (h : Heap) (c : Cube),
      (noiseLoop t sv n h (Buf.loc c)).1.1.data = h.data ∧
        (noiseLoop t sv n h (Buf.loc c)).1.1.noise_slice_z = h.noise_slice_z := by
  induction n with
  | zero => intro h c; simp [noiseLoop]
  | succ n ih =>
      intro h c
      cases sv with
      | false =>
          unfold noiseLoop
          simpa [writeBuf, readBuf] using
            ih { h with
              noise_dev_xy := some (madAxis2 (clipCube t (h.noise_dev.getD []) c)),
              noise_dev := some (flatBroadcast
                (madAxis2 (clipCube t (h.noise_dev.getD []) c)) (shape2 h.data)) }
              (clipCube t (h.noise_dev.getD []) c)
      | true => simp [noiseLoop, writeBuf, readBuf]

/-- Claim C9: `calc_noise_dev` never mutates its inputs: on every path
(success, shape failure, unsupported-feature failure) the cube's `data` array
and the caller's seed-slice buffer hold exactly the values they held before
the call; the sigma-clipping NaN-masking only ever writes through a local
copy. -/
theorem calc_noise_dev_preserves_inputs (it : ℤ) (t : ℚ) (useSeed sv : Bool)
    (h : Heap) :
    (calc_noise_dev it t useSeed sv h).1.data = h.data ∧
      (calc_noise_dev it t useSeed sv h).1.noise_slice_z = h.noise_slice_z := by
  have main : ∀ b : Buf,
      (noiseMain it t sv b h).1.data = h.data ∧
        (noiseMain it t sv b h).1.noise_slice_z = h.noise_slice_z := by
    intro b
    unfold noiseMain
    by_cases hit : 1 < it
    · rw [if_pos hit]
      simpa using noiseLoop_loc_preserves t sv ((it - 1).toNat)
        { h with noise_dev_xy := some (madAxis2 (readBuf h b)),
                 noise_dev := some (expandDims2 (madAxis2 (readBuf h b))) }
        ({ h with noise_dev_xy := some (madAxis2 (readBuf h b)),
                  noise_dev := some (expandDims2 (madAxis2 (readBuf h b))) }).data
    · rw [if_neg hit]
      exact ⟨rfl, rfl⟩
  unfold calc_noise_dev
  cases useSeed with
  | false => simpa using main Buf.selfData
  | true =>
      by_cases hs : seedShapeOk h
      · rw [if_pos rfl, if_pos hs]
        exact main _
      · rw [if_pos rfl, if_neg hs]
        exact ⟨rfl, rfl⟩

/-- Claim C10: an `iterations` value below 1 is treated exactly like
`iterations == 1`: the `iterations > 1` test fails, no refinement pass runs,
no error is raised (for a well-shaped or absent seed), `noise_dev_xy` becomes
the seed MAD estimate and `noise_dev` its flat spectral broadcast. -/
theorem calc_noise_dev_low_iterations (it : ℤ) (t : ℚ) (useSeed sv : Bool)
    (h : Heap) (hit : it < 1) :
    calc_noise_dev it t useSeed sv h = calc_noise_dev 1 t useSeed sv h ∧
      ((useSeed = true → seedShapeOk h) →
        (calc_noise_dev it t useSeed sv h).2 = none ∧
          (calc_noise_dev it t useSeed sv h).1.noise_dev_xy
            = some (madAxis2
                (if useSeed then h.noise_slice_z.getD [] else h.data)) ∧
          (calc_noise_dev it t useSeed sv h).1.noise_dev
            = some (flatBroadcast
                (madAxis2 (if useSeed then h.noise_slice_z.getD [] else h.data))
                (shape2 h.data))) := by
  have main : ∀ b : Buf, noiseMain it t sv b h = noiseMain 1 t sv b h := by
    intro b
    unfold noiseMain
    rw [if_neg (by omega : ¬ (1 : ℤ) < it), if_neg (by omega : ¬ (1 : ℤ) < 1)]
  have shape : ∀ b : Buf,
      noiseMain it t sv b h
        = ({ h with
              noise_dev_xy := some (madAxis2 (readBuf h b))
              noise_dev := some (flatBroadcast (madAxis2 (readBuf h b))
                (shape2 h.data)) }, none) := by
    intro b
    unfold noiseMain
    rw [if_neg (by omega : ¬ (1 : ℤ) < it)]
  constructor
  · unfold calc_noise_dev
    cases useSeed with
    | false => simpa using main Buf.selfData
    | true =>
        by_cases hs : seedShapeOk h
        · rw [if_pos rfl, if_pos hs, if_pos hs]
          exact main _
        · rw [if_pos rfl, if_neg hs, if_pos rfl, if_neg hs]
  · intro hseed
    unfold calc_noise_dev
    cases useSeed with
    | false => simp [shape Buf.selfData, readBuf]
    | true =>
        rw [if_pos rfl, if_pos (hseed rfl)]
        simp [shape (Buf.loc (h.noise_slice_z.getD [])), readBuf]

/-- Witness for C10: `iterations = 0` on a concrete heap with no seed. -/
theorem calc_noise_dev_low_iterations_w :
    calc_noise_dev 0 4 false false hW0 = calc_noise_dev 1 4 false false hW0 ∧
      ((false = true → seedShapeOk hW0) →
        (calc_noise_dev 0 4 false false hW0).2 = none ∧
          (calc_noise_dev 0 4 false false hW0).1.noise_dev_xy
            = some (madAxis2
                (if false then hW0.noise_slice_z.getD [] else hW0.data)) ∧
          (calc_noise_dev 0 4 false false hW0).1.noise_dev
            = some (flatBroadcast
                (madAxis2 (if false then hW0.noise_slice_z.getD [] else hW0.data))
                (shape2 hW0.data))) :=
  calc_noise_dev_low_iterations 0 4 false false hW0 (by decide)

theorem clipCube_dims (t : ℚ) (nd c : Cube) :
    (clipCube t nd c).length = min c.length nd.length ∧
      headLen (clipCube t nd c) = min (headLen c) (headLen nd) := by
  constructor
  · simp [clipCube]
  · cases c with
    | nil => simp [clipCube, headLen]
    | cons p ps =>
        cases nd with
        | nil => simp [clipCube, headLen]
        | cons q qs => simp [clipCube, headLen]

theorem madAxis2_dims (c : Cube) :
    (madAxis2 c).length = c.length ∧ headLen (madAxis2 c) = headLen c := by
  constructor
  · simp [madAxis2]
  · cases c <;> simp [madAxis2, headLen]

theorem expandDims2_dims (m : Mat) :
    (expandDims2 m).length = m.length ∧ headLen (expandDims2 m) = headLen m := by
  constructor
  · simp [expandDims2]
  · cases m <;> simp [expandDims2, headLen]

theorem flatBroadcast_dims (m : Mat) (nz : ℕ) :
    (flatBroadcast m nz).length = m.length ∧
      headLen (flatBroadcast m nz) = headLen m := by
  constructor
  · simp [flatBroadcast]
  · cases m <;> simp [flatBroadcast, headLen]

theorem flatBroadcast_get (m : Mat) (nz i j k : ℕ) (hk : k < nz) :
    get3 (flatBroadcast m nz) i j k = get2 m i j := by
  unfold flatBroadcast get3 get2
  simp only [List.getD_eq_getElem?_getD, List.getElem?_map]
  cases hmi : m[i]? with
  | none => simp
  | some row =>
      simp only [Option.map_some', Option.getD_some, List.getElem?_map]
      cases hrj : row[j]? with
      | none => simp
      | some v =>
          simp only [Option.map_some', Option.getD_some, List.getElem?_map,
            List.getElem?_replicate, if_pos hk]
          rcases v with _ | x <;> simp [optMul, mul_one]

theorem flatBroadcast_rows (m : Mat) (nz : ℕ) :
    ∀ p ∈ flatBroadcast m nz, ∀ r ∈ p, r.length = nz := by
  intro p hp r hr
  simp only [flatBroadcast, List.mem_map] at hp
  obtain ⟨row, hrow, rfl⟩ := hp
  simp only [List.mem_map] at hr
  obtain ⟨v, hv, rfl⟩ := hr
  simp

theorem noiseLoop_flat (t : ℚ) (n : ℕ) :
    ∀ (h : Heap) (c : Cube),
      (h.noise_dev.getD []).length = h.data.length →
      headLen (h.noise_dev.getD []) = shape1 h.data →
      c.length = h.data.length →
      headLen c = shape1 h.data →
      ∃ (xy : Mat) (b' : Buf),
        noiseLoop t false (n + 1) h (Buf.loc c)
          = (({ h with
                noise_dev_xy := some xy
                noise_dev := some (flatBroadcast xy (shape2 h.data)) }, b'), none)
          ∧ xy.length = h.data.length ∧ headLen xy = shape1 h.data := by
  induction n with
  | zero =>
      intro h c hn1 hn2 hn3 hn4
      refine ⟨madAxis2 (clipCube t (h.noise_dev.getD []) c),
        Buf.loc (clipCube t (h.noise_dev.getD []) c), rfl, ?_, ?_⟩
      · rw [(madAxis2_dims _).1, (clipCube_dims t _ c).1, hn3, hn1, min_self]
      · rw [(madAxis2_dims _).2, (clipCube_dims t _ c).2, hn4, hn2]
        exact min_self _
  | succ n ih =>
      intro h c hn1 hn2 hn3 hn4
      have hdl : (clipCube t (h.noise_dev.getD []) c).length = h.data.length := by
        rw [(clipCube_dims t _ c).1, hn3, hn1, min_self]
      have hdh : headLen (clipCube t (h.noise_dev.getD []) c) = shape1 h.data := by
        rw [(clipCube_dims t _ c).2, hn4, hn2]
        exact min_self _
      obtain ⟨xy, b', heq, hl, hh⟩ :=
        ih { h with
              noise_dev_xy := some (madAxis2 (clipCube t (h.noise_dev.getD []) c))
              noise_dev := some (flatBroadcast
                (madAxis2 (clipCube t (h.noise_dev.getD []) c)) (shape2 h.data)) }
          (clipCube t (h.noise_dev.getD []) c)
          (by simpa [(flatBroadcast_dims _ _).1, (madAxis2_dims _).1] using hdl)
          (by simpa [(flatBroadcast_dims _ _).2, (madAxis2_dims _).2] using hdh)
          (by simpa using hdl)
          (by simpa using hdh)
      exact ⟨xy, b', heq, by simpa using hl, by simpa using hh⟩

theorem noiseMain_flat (it : ℤ) (t : ℚ) (h : Heap) (b : Buf)
    (hb1 : (readBuf h b).length = h.data.length)
    (hb2 : headLen (readBuf h b) = shape1 h.data) :
    ∃ xy : Mat,
      noiseMain it t false b h
        = ({ h with
              noise_dev_xy := some xy
              noise_dev := some (flatBroadcast xy (shape2 h.data)) }, none)
        ∧ xy.length = h.data.length ∧ headLen xy = shape1 h.data
        ∧ (it ≤ 1 → xy = madAxis2 (readBuf h b)) := by
  unfold noiseMain
  by_cases hit : 1 < it
  · rw [if_pos hit]
    obtain ⟨n, hn⟩ : ∃ n, (it - 1).toNat = n + 1 := ⟨(it - 2).toNat, by omega⟩
    rw [hn]
    have hx := noiseLoop_flat t n
        { h with
          noise_dev_xy := some (madAxis2 (readBuf h b))
          noise_dev := some (expandDims2 (madAxis2 (readBuf h b))) }
        ({ h with
          noise_dev_xy := some (madAxis2 (readBuf h b))
          noise_dev := some (expandDims2 (madAxis2 (readBuf h b))) }).data
    obtain ⟨xy, b', heq, hl, hh⟩ := hx
        (by simpa [(expandDims2_dims _).1, (madAxis2_dims _).1] using hb1)
        (by simpa [(expandDims2_dims _).2, (madAxis2_dims _).2] using hb2)
        rfl rfl
    refine ⟨xy, ?_, by simpa using hl, by simpa using hh,
      fun hle => absurd hle (by omega)⟩
    show ((noiseLoop t false (n + 1)
        { h with
          noise_dev_xy := some (madAxis2 (readBuf h b))
          noise_dev := some (expandDims2 (madAxis2 (readBuf h b))) }
        (Buf.loc ({ h with
          noise_dev_xy := some (madAxis2 (readBuf h b))
          noise_dev := some (expandDims2 (madAxis2 (readBuf h b))) }).data)).1.1,
      (noiseLoop t false (n + 1)
        { h with
          noise_dev_xy := some (madAxis2 (readBuf h b))
          noise_dev := some (expandDims2 (madAxis2 (readBuf h b))) }
        (Buf.loc ({ h with
          noise_dev_xy := some (madAxis2 (readBuf h b))
          noise_dev := some (expandDims2 (madAxis2 (readBuf h b))) }).data)).2)
      = ({ h with
            noise_dev_xy := some xy
            noise_dev := some (flatBroadcast xy (shape2 h.data)) }, none)
    rw [heq]
  · rw [if_neg hit]
    exact ⟨madAxis2 (readBuf h b), rfl, (madAxis2_dims _).1.trans hb1,
      (madAxis2_dims _).2.trans hb2, fun _ => rfl⟩

/-- Claim C5: with spectral variation off and a well-shaped (or absent) seed
slice, `calc_noise_dev` succeeds for every iteration count; afterwards
`noise_dev` is exactly the flat spectral broadcast of the final 2-D estimate
`noise_dev_xy` (so `noise_dev[i,j,k] = noise_dev_xy[i,j]` for every channel
`k`, every spectral row having the cube's full spectral length and the 2-D
estimate having the cube's spatial dimensions), and with `iterations == 1`
refinement is skipped entirely: the broadcast seed estimate is the result. -/
theorem calc_noise_dev_flat (it : ℤ) (t : ℚ) (useSeed : Bool) (h : Heap)
    (hs : useSeed = true → seedShapeOk h) :
    ∃ xy : Mat,
      calc_noise_dev it t useSeed false h
        = ({ h with
              noise_dev_xy := some xy
              noise_dev := some (flatBroadcast xy (shape2 h.data)) }, none)
        ∧ xy.length = h.data.length ∧ headLen xy = shape1 h.data
        ∧ (∀ i j k : ℕ, k < shape2 h.data →
            get3 (flatBroadcast xy (shape2 h.data)) i j k = get2 xy i j)
        ∧ (∀ p ∈ flatBroadcast xy (shape2 h.data), ∀ r ∈ p,
            r.length = shape2 h.data)
        ∧ (it ≤ 1 →
            xy = madAxis2 (if useSeed then h.noise_slice_z.getD [] else h.data)) := by
  unfold calc_noise_dev
  cases useSeed with
  | false =>
      obtain ⟨xy, heq, hl, hh, hone⟩ := noiseMain_flat it t h Buf.selfData rfl rfl
      exact ⟨xy, by simpa using heq, hl, hh,
        fun i j k hk => flatBroadcast_get xy _ i j k hk,
        flatBroadcast_rows xy _, fun hle => by simpa [readBuf] using hone hle⟩
  | true =>
      have hsk := hs rfl
      rw [if_pos rfl, if_pos hsk]
      obtain ⟨xy, heq, hl, hh, hone⟩ :=
        noiseMain_flat it t h (Buf.loc (h.noise_slice_z.getD []))
          (by simpa [readBuf] using hsk.1) (by simpa [readBuf] using hsk.2)
      exact ⟨xy, heq, hl, hh, fun i j k hk => flatBroadcast_get xy _ i j k hk,
        flatBroadcast_rows xy _, fun hle => by simpa [readBuf] using hone hle⟩

/-- Witness for C5: `iterations = 1`, no seed slice, on a concrete heap. -/
theorem calc_noise_dev_flat_w :
    ∃ xy : Mat,
      calc_noise_dev 1 4 false false hW0
        = ({ hW0 with
              noise_dev_xy := some xy
              noise_dev := some (flatBroadcast xy (shape2 hW0.data)) }, none)
        ∧ xy.length = hW0.data.length ∧ headLen xy = shape1 hW0.data
        ∧ (∀ i j k : ℕ, k < shape2 hW0.data →
            get3 (flatBroadcast xy (shape2 hW0.data)) i j k = get2 xy i j)
        ∧ (∀ p ∈ flatBroadcast xy (shape2 hW0.data), ∀ r ∈ p,
            r.length = shape2 hW0.data)
        ∧ ((1 : ℤ) ≤ 1 →
            xy = madAxis2 (if false then hW0.noise_slice_z.getD [] else hW0.data)) :=
  calc_noise_dev_flat 1 4 false hW0 (fun hfalse => absurd hfalse (by decide))
